import Mathlib

/-!
# Verification of the da-pages-be track service

A shallow embedding of the Track routes of `src/routes/tracks.js` together
with the Track document schema of `src/models/Track.js`, and proofs of the
spec's claims about them.

Conventions of the embedding:
* MongoDB ObjectIds are `String`s; `isMongoId` is validator.js's
  24-hex-character check used by `param('id').isMongoId()` and by the
  custom playlist-id validator.
* A document store is a pair of lists (the `tracks` and `playlists`
  collections); `findByIdAndUpdate` with `$addToSet` / `$pull` becomes a
  pointwise map over the playlist collection (a non-resolving id leaves the
  store unchanged, as `findByIdAndUpdate` on an unknown id is a no-op).
* The Track schema carries the claim-relevant fields (`title`, `author`,
  `description`, `category`, plus the `createdAt` timestamp that orders
  listings).  The remaining free-text fields (`duration`, `listeners`,
  `date`, `thumbnail`, `audioUrl`) are projected away: no claim mentions
  them and their validators constrain only themselves.
* `$regex` with option `i` is modelled as case-insensitive substring
  containment (the behaviour on search terms free of regex
  metacharacters).
-/

/-- One character of a MongoDB ObjectId: `[0-9a-fA-F]` in the validator's
regular expression. -/
def isHexChar (c : Char) : Bool :=
  (decide ('0' ≤ c) && decide (c ≤ '9')) ||
  (decide ('a' ≤ c) && decide (c ≤ 'f')) ||
  (decide ('A' ≤ c) && decide (c ≤ 'F'))

/-- validator.js `isMongoId` / the custom playlists validator's
`/^[0-9a-fA-F]{24}$/` test. -/
def isMongoId (s : String) : Bool :=
  s.length == 24 && s.data.all isHexChar

/-- A stored Track document (`src/models/Track.js`).  `trackSchema` declares
no `playlists` path, so the document carries none; `id` is the Mongo `_id`
and `createdAt` the `timestamps: true` creation time. -/
structure Track where
  id : String
  title : String
  author : String
  description : String
  category : String
  createdAt : Nat
deriving Repr, DecidableEq

/-- Reading the `playlists` attribute of a stored Track document.
`trackSchema` has no `playlists` path, so the attribute is absent on every
document and `currentTrack.playlists || []` in the PUT handler evaluates to
the empty array. -/
def Track.playlists (_ : Track) : List String := []

/-- Modelled from the spec: `src/models/Playlist.js` is imported by
`src/routes/tracks.js` but is not among the repository's files.  Per §3 of
the spec a Playlist "holds a set of Track identifiers" — its `tracks`
field, the target of the handlers' `$addToSet` / `$pull` updates. -/
structure Playlist where
  id : String
  tracks : List String
deriving Repr, DecidableEq

/-- The persistent store: the `tracks` and `playlists` collections. -/
structure Store where
  tracks : List Track
  playlists : List Playlist
deriving Repr, DecidableEq

/-- The body of a POST/PUT request as the handlers read it after
express-validator's sanitizers ran: each claim-relevant field, absent
(`none`) or present, plus the `playlists` array. -/
structure TrackInput where
  title : Option String := none
  author : Option String := none
  description : Option String := none
  category : Option String := none
  playlists : Option (List String) := none
deriving Repr, DecidableEq

/-- The `.trim()` sanitizer (and the schema's `trim: true`): strip leading and trailing
whitespace.  (Structurally recursive so that concrete runs reduce in the
kernel; `String.trim` itself is byte-position based.) -/
def strTrim (s : String) : String :=
  ⟨((s.data.dropWhile Char.isWhitespace).reverse.dropWhile Char.isWhitespace).reverse⟩

/-- Rule `body(f).optional().trim().isLength \x7bmax: n\x7d`: an absent field
passes; a present one is trimmed and its length checked. -/
def optionalMaxLength (f : Option String) (n : Nat) : Bool :=
  match f with
  | none => true
  | some s => (strTrim s).length ≤ n

/-- The `trackValidationRules` array of `src/routes/tracks.js`: the length rules for
title/author/description/category and the custom playlists rule checking
every supplied id against the ObjectId regular expression. -/
def trackValidationRules (i : TrackInput) : Bool :=
  optionalMaxLength i.title 200 &&
  optionalMaxLength i.author 100 &&
  optionalMaxLength i.description 500 &&
  optionalMaxLength i.category 50 &&
  (match i.playlists with
   | none => true
   | some l => l.all isMongoId)

/-- Construction `new Track(trackData)` + `save()`: the schema stores the trimmed
claim-relevant fields; the `playlists` entry of the body is dropped because
the schema declares no such path. -/
def mkTrack (i : TrackInput) (newId : String) (now : Nat) : Track :=
  { id := newId
    title := strTrim (i.title.getD "")
    author := strTrim (i.author.getD "")
    description := strTrim (i.description.getD "")
    category := strTrim (i.category.getD "")
    createdAt := now }

/-- Update `Track.findByIdAndUpdate(id, updateData)`: fields present in the body
replace the stored ones (trimmed by the schema); `playlists` in the body is
not a schema path and is dropped. -/
def applyUpdate (t : Track) (i : TrackInput) : Track :=
  { t with
    title := (i.title.map strTrim).getD t.title
    author := (i.author.map strTrim).getD t.author
    description := (i.description.map strTrim).getD t.description
    category := (i.category.map strTrim).getD t.category }

/-- Step `$addToSet \x7b tracks: tid \x7d` on one playlist document: append
`tid` unless already present ("$addToSet prevents duplicates"). -/
def addOnce (tid : String) (p : Playlist) : Playlist :=
  if p.tracks.contains tid then p else { p with tracks := p.tracks ++ [tid] }

/-- Call `Playlist.findByIdAndUpdate(pid, \x7b $addToSet: \x7b tracks: tid \x7d
\x7d)`: `$addToSet` on the playlist whose `_id` is `pid`; on an id
resolving to no playlist, a no-op. -/
def addToSetTracks (s : Store) (pid tid : String) : Store :=
  { s with
    playlists := s.playlists.map fun p => if p.id = pid then addOnce tid p else p }

/-- Call `Playlist.findByIdAndUpdate(pid, \x7b $pull: \x7b tracks: tid \x7d
\x7d)`: on the playlist whose `_id` is `pid`, remove every occurrence of
`tid` from `tracks`; on an id resolving to no playlist, a no-op. -/
def pullTracks (s : Store) (pid tid : String) : Store :=
  { s with
    playlists := s.playlists.map fun p =>
      if p.id = pid then { p with tracks := p.tracks.filter fun x => !(x == tid) }
      else p }

/-- Outcome of `POST /api/tracks`: 400 from `handleValidationErrors`, or
201 with the created document. -/
inductive CreateResult where
  | validationError
  | created (t : Track)
deriving Repr, DecidableEq

/-- Handler `POST /api/tracks`: run `trackValidationRules` (a failure answers 400
before any write); save the new Track; then loop `$addToSet` over the
declared playlist ids, each step independently best-effort. -/
def postTrack (s : Store) (body : TrackInput) (newId : String) (now : Nat) :
    Store × CreateResult :=
  if trackValidationRules body then
    let t := mkTrack body newId now
    let s1 : Store := { s with tracks := s.tracks ++ [t] }
    let s2 := (body.playlists.getD []).foldl (fun st pid => addToSetTracks st pid t.id) s1
    (s2, CreateResult.created t)
  else
    (s, CreateResult.validationError)

/-- Outcome of `PUT /api/tracks/:id`: 400, 404, or 200 with the updated
document. -/
inductive UpdateResult where
  | validationError
  | notFound
  | updated (t : Track)
deriving Repr, DecidableEq

/-- Handler `PUT /api/tracks/:id`: validate the id and body; 404 when the id
resolves to no Track; otherwise `findByIdAndUpdate`, then reconcile
playlist membership: pull the id from `oldPlaylists` entries absent from
the new list, `$addToSet` it into new entries absent from `oldPlaylists` —
where `oldPlaylists` is `currentTrack.playlists || []`, which the schema
makes `[]` on every document. -/
def putTrack (s : Store) (id : String) (body : TrackInput) :
    Store × UpdateResult :=
  if isMongoId id && trackValidationRules body then
    match s.tracks.find? fun t => t.id == id with
    | none => (s, UpdateResult.notFound)
    | some currentTrack =>
      let updated := applyUpdate currentTrack body
      let s1 : Store :=
        { s with tracks := s.tracks.map fun t => if t.id == id then updated else t }
      match body.playlists with
      | none => (s1, UpdateResult.updated updated)
      | some newPlaylists =>
        let oldPlaylists := currentTrack.playlists
        let playlistsToRemove := oldPlaylists.filter fun p => !(newPlaylists.contains p)
        let s2 := playlistsToRemove.foldl (fun st pid => pullTracks st pid id) s1
        let playlistsToAdd := newPlaylists.filter fun p => !(oldPlaylists.contains p)
        let s3 := playlistsToAdd.foldl (fun st pid => addToSetTracks st pid id) s2
        (s3, UpdateResult.updated updated)
  else (s, UpdateResult.validationError)

/-- Whether `needle` matches at the head of `hay`. -/
def charsMatchHere : List Char → List Char → Bool
  | [], _ => true
  | _ :: _, [] => false
  | a :: as, b :: bs => a == b && charsMatchHere as bs

/-- Whether `needle` occurs as a contiguous run somewhere in `hay`. -/
def charsContains : List Char → List Char → Bool
  | [], needle => needle.isEmpty
  | h :: rest, needle => charsMatchHere needle (h :: rest) || charsContains rest needle

/-- Operator `\x7b $regex: needle, $options: 'i' \x7d` applied to `hay`:
case-insensitive containment (the behaviour on metacharacter-free terms). -/
def containsCI (hay needle : String) : Bool :=
  charsContains (hay.data.map Char.toLower) (needle.data.map Char.toLower)

/-- The query string of `GET /api/tracks`:
`\x7b page = 1, limit = 10, category, author, search \x7d`.  An absent or
empty parameter (falsy in the handler's `if`s) is `none`. -/
structure ListQuery where
  page : Nat := 1
  limit : Nat := 10
  category : Option String := none
  author : Option String := none
  search : Option String := none
deriving Repr, DecidableEq

/-- The filter document the handler builds: exact `category` match AND
case-insensitive `author` regex AND (when `search` is present) the `$or`
of the four case-insensitive field regexes. -/
def matchesQuery (q : ListQuery) (t : Track) : Bool :=
  (match q.category with
   | none => true
   | some c => t.category == c) &&
  (match q.author with
   | none => true
   | some a => containsCI t.author a) &&
  (match q.search with
   | none => true
   | some srch =>
     containsCI t.title srch || containsCI t.description srch ||
     containsCI t.author srch || containsCI t.category srch)

/-- Order `.sort(\x7b createdAt: -1 \x7d)`: creation time, most recent first. -/
def byCreatedDesc : Track → Track → Prop := fun a b => b.createdAt ≤ a.createdAt

instance : DecidableRel byCreatedDesc :=
  fun a b => inferInstanceAs (Decidable (b.createdAt ≤ a.createdAt))

instance : IsTotal Track byCreatedDesc :=
  ⟨fun a b => Nat.le_total b.createdAt a.createdAt⟩

instance : IsTrans Track byCreatedDesc :=
  ⟨fun _ _ _ hab hbc => Nat.le_trans hbc hab⟩

/-- The store's execution of `.sort(\x7b createdAt: -1 \x7d)` (embedded as a
stable sort by descending creation time). -/
def sortTracks (l : List Track) : List Track :=
  l.insertionSort byCreatedDesc

/-- The `pagination` object of the list response. -/
structure Pagination where
  currentPage : Nat
  totalPages : Nat
  totalItems : Nat
  itemsPerPage : Nat
deriving Repr, DecidableEq

/-- The `data` object of the list response: the page of tracks plus the
pagination envelope. -/
structure ListResponse where
  tracks : List Track
  pagination : Pagination
deriving Repr, DecidableEq

/-- Handler `GET /api/tracks`: build the filter, sort by `createdAt` descending,
skip `(page - 1) * limit`, take `limit`, and report
`Math.ceil(total / limit)` total pages — `(total + limit - 1) / limit`
in exact arithmetic for `limit > 0`. -/
def getTracks (s : Store) (q : ListQuery) : ListResponse :=
  let skip := (q.page - 1) * q.limit
  let matching := s.tracks.filter (matchesQuery q)
  let sorted := sortTracks matching
  let total := matching.length
  { tracks := (sorted.drop skip).take q.limit
    pagination :=
      { currentPage := q.page
        totalPages := (total + q.limit - 1) / q.limit
        totalItems := total
        itemsPerPage := q.limit } }

/-- Outcome of `DELETE /api/tracks/:id`: 400, 404, or 200 carrying
`\x7b id, title \x7d` of the deleted document. -/
inductive DeleteResult where
  | validationError
  | notFound
  | deleted (id : String) (title : String)
deriving Repr, DecidableEq

/-- Handler `DELETE /api/tracks/:id`: validate the id; `findByIdAndDelete` — 404
when nothing resolves, otherwise remove the one matching document and
answer with its id and title.  No playlist is touched. -/
def deleteTrack (s : Store) (id : String) : Store × DeleteResult :=
  if isMongoId id then
    match s.tracks.find? fun t => t.id == id with
    | none => (s, DeleteResult.notFound)
    | some track =>
      ({ s with tracks := s.tracks.eraseP fun t => t.id == id },
       DeleteResult.deleted track.id track.title)
  else (s, DeleteResult.validationError)

/-- The spec's relationship-consistency invariant (§3): for every stored
Track T and Playlist P, `T.playlists` contains P iff `P.tracks` contains
T. -/
def relationshipInvariant (s : Store) : Bool :=
  s.tracks.all fun t => s.playlists.all fun p =>
    t.playlists.contains p.id == p.tracks.contains t.id

/-- A well-formed playlist ObjectId used in the concrete scenarios. -/
def pidA : String := "0123456789abcdef01234567"

/-- A well-formed track ObjectId used in the concrete scenarios. -/
def tidA : String := "aaaabbbbccccddddeeeeffff"

/-- A store holding one (still empty) playlist and no track. -/
def emptyPlaylistStore : Store :=
  { tracks := [], playlists := [{ id := pidA, tracks := [] }] }

/-- A creation body declaring membership in the playlist `pidA`. -/
def bodyWithPlaylist : TrackInput := { playlists := some [pidA] }

/-- A store where the playlist `pidA` already references the track `tidA`
(the state reconciliation put it in at creation time). -/
def storeWithMembership : Store :=
  { tracks := [{ id := tidA, title := "Song A", author := "", description := "",
                 category := "", createdAt := 0 }],
    playlists := [{ id := pidA, tracks := [tidA] }] }

/-! ## Helper lemmas -/

theorem addOnce_id (tid : String) (p : Playlist) : (addOnce tid p).id = p.id := by
  unfold addOnce; split <;> rfl

theorem addOnce_idem (tid : String) (p : Playlist) :
    addOnce tid (addOnce tid p) = addOnce tid p := by
  by_cases h : p.tracks.contains tid
  · have e : addOnce tid p = p := by rw [addOnce, if_pos h]
    rw [e, e]
  · have e : addOnce tid p = { p with tracks := p.tracks ++ [tid] } := by
      rw [addOnce, if_neg h]
    have h2 : (({ p with tracks := p.tracks ++ [tid] } : Playlist)).tracks.contains tid = true := by
      simp
    rw [e, addOnce, if_pos h2]

theorem addOnce_count (tid : String) (p : Playlist) (h : p.tracks.contains tid = false) :
    (addOnce tid p).tracks.count tid = 1 := by
  have hnot : ¬ p.tracks.contains tid = true := by rw [h]; exact Bool.false_ne_true
  have h0 : p.tracks.count tid = 0 := by
    rw [List.count_eq_zero]
    simpa using h
  rw [addOnce, if_neg hnot]
  simp [h0]

theorem foldl_addToSet_playlists (tid : String) (pids : List String) (s : Store) :
    (pids.foldl (fun st pid => addToSetTracks st pid tid) s).playlists =
      s.playlists.map fun p => if pids.contains p.id then addOnce tid p else p := by
  induction pids generalizing s with
  | nil => simp
  | cons pid rest ih =>
    simp only [List.foldl_cons]
    rw [ih]
    show (s.playlists.map fun p => if p.id = pid then addOnce tid p else p).map _ = _
    rw [List.map_map]
    refine List.map_congr_left fun p _ => ?_
    by_cases h1 : p.id = pid
    · by_cases h2 : rest.contains p.id
      · simp [Function.comp, h1, addOnce_id, h2, addOnce_idem, List.contains_cons]
      · simp [Function.comp, h1, addOnce_id, h2, List.contains_cons, addOnce_idem]
    · by_cases h2 : rest.contains p.id
      · simp [Function.comp, h1, h2, List.contains_cons, Ne.symm h1]
      · simp [Function.comp, h1, h2, List.contains_cons, Ne.symm h1]

theorem foldl_addToSet_tracks (tid : String) (pids : List String) (s : Store) :
    (pids.foldl (fun st pid => addToSetTracks st pid tid) s).tracks = s.tracks := by
  induction pids generalizing s with
  | nil => rfl
  | cons pid rest ih => simp only [List.foldl_cons]; rw [ih]; rfl

theorem natCeil_div_formula (a b : ℕ) (hb : 0 < b) :
    ((a + b - 1) / b : ℕ) = ⌈(a : ℚ) / (b : ℚ)⌉₊ := by
  rcases Nat.eq_zero_or_pos a with ha | ha
  · subst ha
    simp only [Nat.zero_add, Nat.cast_zero, zero_div, Nat.ceil_zero]
    exact Nat.div_eq_of_lt (by omega)
  · set n := (a + b - 1) / b with hn
    have hn1 : 1 ≤ n := by
      rw [hn, Nat.one_le_div_iff hb]; omega
    have hub : a + b - 1 < (n + 1) * b := by
      rw [hn]
      exact (Nat.div_lt_iff_lt_mul hb).mp (Nat.lt_succ_self _)
    have hlb : n * b ≤ a + b - 1 := Nat.div_mul_le_self (a + b - 1) b
    have hstep : (n - 1) * b = n * b - b := by
      rw [Nat.sub_mul, one_mul]
    have hstep2 : (n + 1) * b = n * b + b := by
      rw [Nat.add_mul, one_mul]
    have h1 : (n - 1) * b < a := by omega
    have h2 : a ≤ n * b := by omega
    symm
    rw [Nat.ceil_eq_iff (by omega)]
    constructor
    · rw [lt_div_iff₀ (by positivity)]
      exact_mod_cast h1
    · rw [div_le_iff₀ (by positivity)]
      exact_mod_cast h2

/-! ## Claims -/

/-- C10: the persisted Track record never contains a `playlists` field:
the schema declares no such path, so the stored document is independent of
the `playlists` value supplied on create or update, and reading the
attribute always yields nothing. -/
theorem trackSchema_stores_no_playlists :
    (∀ t : Track, t.playlists = ([] : List String)) ∧
    (∀ (body : TrackInput) (pl : Option (List String)) (newId : String) (now : Nat),
        mkTrack { body with playlists := pl } newId now = mkTrack body newId now) ∧
    (∀ (t : Track) (body : TrackInput) (pl : Option (List String)),
        applyUpdate t { body with playlists := pl } = applyUpdate t body) :=
  ⟨fun _ => rfl, fun _ _ _ _ => rfl, fun _ _ _ => rfl⟩

/-- C9: deleting a well-formed Track id that resolves to no Track answers
"not found" and leaves the store — tracks and playlists — untouched. -/
theorem deleteTrack_nonexistent_no_mutation (s : Store) (id : String)
    (hid : isMongoId id = true)
    (hfind : (s.tracks.find? fun t => t.id == id) = none) :
    deleteTrack s id = (s, DeleteResult.notFound) := by
  rw [deleteTrack, if_pos hid, hfind]

theorem deleteTrack_nonexistent_no_mutation_witness :
    isMongoId pidA = true ∧ deleteTrack emptyPlaylistStore pidA = (emptyPlaylistStore, DeleteResult.notFound) :=
  ⟨by decide, deleteTrack_nonexistent_no_mutation emptyPlaylistStore pidA (by decide) (by decide)⟩

/-- C8: deleting an existing Track removes only the Track record: the
response carries the record's id and title, the playlists collection is
untouched, and in particular every playlist that referenced the deleted id
still references it (no delete-side reconciliation). -/
theorem deleteTrack_removes_only_the_track (s : Store) (id : String) (track : Track)
    (hid : isMongoId id = true)
    (hfind : (s.tracks.find? fun t => t.id == id) = some track) :
    (deleteTrack s id).2 = DeleteResult.deleted track.id track.title ∧
    (deleteTrack s id).1.tracks = s.tracks.eraseP (fun t => t.id == id) ∧
    (deleteTrack s id).1.playlists = s.playlists ∧
    (∀ p ∈ s.playlists, p.tracks.contains id = true →
        ∃ p' ∈ (deleteTrack s id).1.playlists, p'.id = p.id ∧ p'.tracks.contains id = true) := by
  rw [deleteTrack, if_pos hid, hfind]
  refine ⟨rfl, rfl, rfl, ?_⟩
  intro p hp hmem
  exact ⟨p, hp, rfl, hmem⟩

theorem deleteTrack_removes_only_the_track_witness :
    ((storeWithMembership.tracks.find? fun t => t.id == tidA) =
      some { id := tidA, title := "Song A", author := "", description := "",
             category := "", createdAt := 0 }) ∧
    (deleteTrack storeWithMembership tidA).1.playlists = storeWithMembership.playlists :=
  ⟨by decide,
   (deleteTrack_removes_only_the_track storeWithMembership tidA
      { id := tidA, title := "Song A", author := "", description := "",
        category := "", createdAt := 0 } (by decide) (by decide)).2.2.1⟩

/-- C6: a creation body holding a playlist id that fails the 24-hex shape
is rejected with a validation error before any write (the store is
returned unchanged), while a body passing validation — well-formed ids,
resolving or not — always yields "created". -/
theorem postTrack_invalid_playlist_id_rejected (s : Store) (body : TrackInput)
    (newId : String) (now : Nat) :
    (∀ (l : List String) (pid : String),
        body.playlists = some l → pid ∈ l → isMongoId pid = false →
        postTrack s body newId now = (s, CreateResult.validationError)) ∧
    (trackValidationRules body = true →
        (postTrack s body newId now).2 = CreateResult.created (mkTrack body newId now)) := by
  constructor
  · intro l pid hl hp hbad
    have hall : l.all isMongoId = false := by
      rw [List.all_eq_false]
      exact ⟨pid, hp, by rw [hbad]; exact Bool.false_ne_true⟩
    have hv : trackValidationRules body = false := by
      simp [trackValidationRules, hl, hall]
    rw [postTrack, if_neg (by rw [hv]; exact Bool.false_ne_true)]
  · intro hv
    simp only [postTrack, hv, if_true]

/-- C7: a creation body whose well-formed playlist ids resolve to no stored
playlist still creates the Track and answers "created"; the skipped
reconciliation steps leave the playlists collection untouched. -/
theorem postTrack_tolerates_unresolved_playlists (s : Store) (body : TrackInput)
    (newId : String) (now : Nat)
    (hv : trackValidationRules body = true)
    (hnone : ∀ pid ∈ body.playlists.getD [], ∀ p ∈ s.playlists, p.id ≠ pid) :
    (postTrack s body newId now).2 = CreateResult.created (mkTrack body newId now) ∧
    (postTrack s body newId now).1.tracks = s.tracks ++ [mkTrack body newId now] ∧
    (postTrack s body newId now).1.playlists = s.playlists := by
  have hnc : ∀ p ∈ s.playlists, (body.playlists.getD []).contains p.id = false := by
    intro p hp
    by_contra h
    have hmem : p.id ∈ body.playlists.getD [] := by
      have := Bool.of_not_eq_false h
      simpa using this
    exact hnone p.id hmem p hp rfl
  refine ⟨?_, ?_, ?_⟩
  · simp only [postTrack, hv, if_true]
  · simp only [postTrack, hv, if_true]
    rw [foldl_addToSet_tracks]
  · simp only [postTrack, hv, if_true]
    rw [foldl_addToSet_playlists]
    have : ∀ p ∈ s.playlists,
        (if (body.playlists.getD []).contains p.id then addOnce newId p else p) = p := by
      intro p hp
      rw [hnc p hp]
      simp
    calc (List.map _ s.playlists) = s.playlists.map id := List.map_congr_left (by simpa using this)
      _ = s.playlists := List.map_id s.playlists

theorem postTrack_tolerates_unresolved_playlists_witness :
    trackValidationRules bodyWithPlaylist = true ∧
    (postTrack { tracks := [], playlists := [] } bodyWithPlaylist tidA 0).1.playlists = [] :=
  ⟨by decide,
   (postTrack_tolerates_unresolved_playlists { tracks := [], playlists := [] }
      bodyWithPlaylist tidA 0 (by decide) (by decide)).2.2⟩

/-- C3: creating a Track that declares N playlist memberships (duplicates
allowed in the request) leaves each named playlist's track set holding the
new id exactly once, and leaves unnamed playlists untouched; `$addToSet`
applied twice has no additional effect. -/
theorem postTrack_adds_to_each_playlist_once (s : Store) (body : TrackInput)
    (newId : String) (now : Nat)
    (hv : trackValidationRules body = true)
    (hfresh : ∀ p ∈ s.playlists, p.tracks.contains newId = false) :
    (postTrack s body newId now).2 = CreateResult.created (mkTrack body newId now) ∧
    (∀ p' ∈ (postTrack s body newId now).1.playlists,
        ((body.playlists.getD []).contains p'.id = true → p'.tracks.count newId = 1) ∧
        ((body.playlists.getD []).contains p'.id = false → p' ∈ s.playlists)) ∧
    (∀ (st : Store) (pid tid : String),
        addToSetTracks (addToSetTracks st pid tid) pid tid = addToSetTracks st pid tid) := by
  refine ⟨by simp only [postTrack, hv, if_true], ?_, ?_⟩
  · intro p' hp'
    have hpl : (postTrack s body newId now).1.playlists =
        s.playlists.map fun p =>
          if (body.playlists.getD []).contains p.id then addOnce newId p else p := by
      simp only [postTrack, hv, if_true]
      exact foldl_addToSet_playlists newId (body.playlists.getD []) _
    rw [hpl] at hp'
    obtain ⟨p, hpmem, hpe⟩ := List.mem_map.mp hp'
    by_cases hc : (body.playlists.getD []).contains p.id
    · rw [if_pos hc] at hpe
      subst hpe
      constructor
      · intro _
        exact addOnce_count newId p (hfresh p hpmem)
      · intro hfalse
        rw [addOnce_id, hc] at hfalse
        exact absurd hfalse.symm Bool.false_ne_true
    · rw [if_neg hc] at hpe
      subst hpe
      constructor
      · intro htrue
        exact absurd htrue hc
      · intro _
        exact hpmem
  · intro st pid tid
    simp only [addToSetTracks, List.map_map]
    congr 1
    refine List.map_congr_left fun p _ => ?_
    by_cases h : p.id = pid
    · simp [Function.comp, h, addOnce_id, addOnce_idem]
    · simp [Function.comp, h]

theorem postTrack_adds_to_each_playlist_once_witness :
    trackValidationRules { playlists := some [pidA, pidA] } = true ∧
    (∀ p' ∈ (postTrack emptyPlaylistStore { playlists := some [pidA, pidA] } tidA 0).1.playlists,
        (([pidA, pidA] : List String).contains p'.id = true → p'.tracks.count tidA = 1)) :=
  ⟨by decide,
   fun p' hp' =>
     ((postTrack_adds_to_each_playlist_once emptyPlaylistStore
        { playlists := some [pidA, pidA] } tidA 0 (by decide) (by decide)).2.1 p' hp').1⟩

/-- C1 (failing on the code): creating a Track with a declared playlist
membership yields a store where the playlist's track set references the
new Track but the stored Track document carries no playlist (the schema
has no `playlists` path), so the bidirectional relationship invariant is
false right after a successful create. -/
theorem postTrack_breaks_relationship_invariant :
    (postTrack emptyPlaylistStore bodyWithPlaylist tidA 0).2 =
      CreateResult.created (mkTrack bodyWithPlaylist tidA 0) ∧
    (postTrack emptyPlaylistStore bodyWithPlaylist tidA 0).1.playlists =
      [{ id := pidA, tracks := [tidA] }] ∧
    (mkTrack bodyWithPlaylist tidA 0).playlists = [] ∧
    relationshipInvariant (postTrack emptyPlaylistStore bodyWithPlaylist tidA 0).1 = false := by
  refine ⟨?_, ?_, ?_, ?_⟩ <;> decide

/-- C2 (failing on the code): with the playlist `pidA` referencing the
track `tidA`, an update of that track whose new playlist set is empty
(A = \x7b pidA \x7d, B = ∅) leaves `pidA`'s track set unchanged: the PUT
handler's `oldPlaylists` reads the schema-less `playlists` attribute and
is always empty, so nothing is ever pulled. -/
theorem putTrack_keeps_stale_membership :
    (putTrack storeWithMembership tidA { playlists := some [] }).2 =
      UpdateResult.updated { id := tidA, title := "Song A", author := "", description := "",
                             category := "", createdAt := 0 } ∧
    (putTrack storeWithMembership tidA { playlists := some [] }).1.playlists =
      [{ id := pidA, tracks := [tidA] }] := by
  refine ⟨?_, ?_⟩ <;> decide

/-- A store of 25 tracks (creation times 0..24) and the page=2 listing
query, for exercising the pagination contract. -/
def store25 : Store :=
  { tracks := (List.range 25).map fun i =>
      { id := "", title := "", author := "", description := "", category := "", createdAt := i },
    playlists := [] }

/-- Query `page=2` with the default `limit=10` and no filters. -/
def query2 : ListQuery := { page := 2 }

/-- C4: listing with page=2, limit=10 over 25 matching items answers items
11–20 of the creation-time-descending order with the envelope
currentPage=2, totalPages=3, totalItems=25, itemsPerPage=10; in general
the offset is (page − 1) × limit and totalPages is ⌈total / limit⌉. -/
theorem getTracks_pagination_page2 (s : Store) (q : ListQuery)
    (hpage : q.page = 2) (hlimit : q.limit = 10)
    (htotal : (s.tracks.filter (matchesQuery q)).length = 25) :
    (getTracks s q).pagination =
      { currentPage := 2, totalPages := 3, totalItems := 25, itemsPerPage := 10 } ∧
    (getTracks s q).tracks =
      ((sortTracks (s.tracks.filter (matchesQuery q))).drop 10).take 10 ∧
    (getTracks s q).tracks.length = 10 ∧
    List.Sorted byCreatedDesc (getTracks s q).tracks ∧
    (∀ (s2 : Store) (q2 : ListQuery),
        (getTracks s2 q2).tracks =
          ((sortTracks (s2.tracks.filter (matchesQuery q2))).drop
            ((q2.page - 1) * q2.limit)).take q2.limit) ∧
    (∀ (s2 : Store) (q2 : ListQuery), 0 < q2.limit →
        (getTracks s2 q2).pagination.totalPages =
          ⌈((s2.tracks.filter (matchesQuery q2)).length : ℚ) / (q2.limit : ℚ)⌉₊) := by
  have htr : (getTracks s q).tracks =
      ((sortTracks (s.tracks.filter (matchesQuery q))).drop 10).take 10 := by
    simp only [getTracks, hpage, hlimit]
  have hsortlen : (sortTracks (s.tracks.filter (matchesQuery q))).length = 25 := by
    rw [sortTracks, List.length_insertionSort, htotal]
  refine ⟨?_, htr, ?_, ?_, ?_, ?_⟩
  · simp only [getTracks, hpage, hlimit, htotal]
  · rw [htr, List.length_take, List.length_drop, hsortlen]
    decide
  · have hsorted : List.Sorted byCreatedDesc (sortTracks (s.tracks.filter (matchesQuery q))) :=
      List.sorted_insertionSort byCreatedDesc _
    have hsub : List.Sublist
        (((sortTracks (s.tracks.filter (matchesQuery q))).drop 10).take 10)
        (sortTracks (s.tracks.filter (matchesQuery q))) :=
      (List.take_sublist _ _).trans (List.drop_sublist _ _)
    rw [htr]
    exact List.Pairwise.sublist hsub hsorted
  · intro s2 q2
    rfl
  · intro s2 q2 h
    simp only [getTracks]
    exact natCeil_div_formula _ _ h

theorem getTracks_pagination_page2_witness :
    (store25.tracks.filter (matchesQuery query2)).length = 25 ∧
    (getTracks store25 query2).pagination =
      { currentPage := 2, totalPages := 3, totalItems := 25, itemsPerPage := 10 } :=
  ⟨by decide, (getTracks_pagination_page2 store25 query2 rfl rfl (by decide)).1⟩

/-- A track whose author alone contains the search term "Bob". -/
def trackBob : Track :=
  { id := "", title := "x", author := "bobby", description := "x", category := "x", createdAt := 0 }

/-- A track matching the term in no field. -/
def trackAlice : Track :=
  { id := "", title := "x", author := "alice", description := "x", category := "x", createdAt := 1 }

/-- The two-track store for the search scenario. -/
def searchStore : Store := { tracks := [trackBob, trackAlice], playlists := [] }

/-- A listing query whose only parameter is `search=Bob`. -/
def searchQuery : ListQuery := { search := some "Bob" }

/-- C5: when the search term occurs (case-insensitively) in no item's
title, description or category, the matching set is exactly the items
whose author contains the term, and what the listing returns is the
corresponding page; in general `search` is the OR of the four field
regexes and combines with the field filters by AND. -/
theorem getTracks_search_matches_author_only (s : Store) (q : ListQuery) (term : String)
    (hsearch : q.search = some term)
    (hcat : q.category = none) (hauth : q.author = none)
    (honly : ∀ t ∈ s.tracks,
        containsCI t.title term = false ∧ containsCI t.description term = false ∧
        containsCI t.category term = false) :
    s.tracks.filter (matchesQuery q) = s.tracks.filter (fun t => containsCI t.author term) ∧
    (getTracks s q).pagination.totalItems =
      (s.tracks.filter fun t => containsCI t.author term).length ∧
    (getTracks s q).tracks =
      ((sortTracks (s.tracks.filter fun t => containsCI t.author term)).drop
        ((q.page - 1) * q.limit)).take q.limit ∧
    (∀ (q2 : ListQuery) (t : Track) (srch : String), q2.search = some srch →
        (matchesQuery q2 t = true ↔
          ((∀ c, q2.category = some c → t.category = c) ∧
           (∀ a, q2.author = some a → containsCI t.author a = true) ∧
           (containsCI t.title srch = true ∨ containsCI t.description srch = true ∨
            containsCI t.author srch = true ∨ containsCI t.category srch = true)))) := by
  have hfe : ∀ t ∈ s.tracks, matchesQuery q t = containsCI t.author term := by
    intro t ht
    obtain ⟨h1, h2, h3⟩ := honly t ht
    simp [matchesQuery, hsearch, hcat, hauth, h1, h2, h3]
  have hfilter : s.tracks.filter (matchesQuery q) =
      s.tracks.filter fun t => containsCI t.author term :=
    List.filter_congr hfe
  refine ⟨hfilter, ?_, ?_, ?_⟩
  · show (s.tracks.filter (matchesQuery q)).length = _
    rw [hfilter]
  · show ((sortTracks (s.tracks.filter (matchesQuery q))).drop _).take _ = _
    rw [hfilter]
  · intro q2 t srch hs2
    cases hcq : q2.category with
    | none =>
      cases haq : q2.author with
      | none =>
        simp only [matchesQuery, hs2, hcq, haq, Bool.and_eq_true, Bool.or_eq_true]
        tauto
      | some a =>
        simp only [matchesQuery, hs2, hcq, haq, Bool.and_eq_true, Bool.or_eq_true]
        simp
        tauto
    | some c =>
      cases haq : q2.author with
      | none =>
        simp only [matchesQuery, hs2, hcq, haq, Bool.and_eq_true, Bool.or_eq_true]
        simp
        tauto
      | some a =>
        simp only [matchesQuery, hs2, hcq, haq, Bool.and_eq_true, Bool.or_eq_true]
        simp
        tauto

theorem getTracks_search_matches_author_only_witness :
    (∀ t ∈ searchStore.tracks,
        containsCI t.title "Bob" = false ∧ containsCI t.description "Bob" = false ∧
        containsCI t.category "Bob" = false) ∧
    searchStore.tracks.filter (matchesQuery searchQuery) =
      searchStore.tracks.filter (fun t => containsCI t.author "Bob") :=
  ⟨by decide,
   (getTracks_search_matches_author_only searchStore searchQuery "Bob" rfl rfl rfl (by decide)).1⟩
